import Mathlib

/-!
# Formalisation of the FlareNet token-bucket rate limiter

A shallow embedding of `src/middlewares/tokenBucketLimiter.js` and the
rate-limiter configuration in `src/routes/chatBotRoutes.js`.

JavaScript numbers are modelled as rationals (`ℚ`); `Math.floor` and
`Math.ceil` become `Int.floor` / `Int.ceil`.  Values read from the Redis
hash are modelled by `StoredVal`: a field is either absent (or the empty
string, which the source's `||` fallback treats the same way), a string
whose `parseFloat` is `NaN`, or a numeric value.  A fallible store read
is an `Except Unit` value, mirroring the `try { ... } catch` around
`hgetall` in `getBucket`.
-/

namespace Flarenet

/-- One field of the persisted Redis hash.  `absent` covers a missing
field and the empty string (both falsy in JS, so `existingBucket.f || d`
takes the default); `junk` is a string that `parseFloat`/`parseInt`
turns into `NaN`; `num q` is a field that parses to the number `q`. -/
inductive StoredVal where
  | absent : StoredVal
  | junk : StoredVal
  | num : ℚ → StoredVal
deriving DecidableEq

/-- The persisted hash at key `ratelimit:<identifier>`: fields `tokens`,
`lastRefill`, `bucketSize`, `refillRate` (tokenBucketLimiter.js:56-61). -/
structure StoredHash where
  tokens : StoredVal
  lastRefill : StoredVal
  bucketSize : StoredVal
  refillRate : StoredVal
deriving DecidableEq

/-- In-memory bucket produced by `getBucket` (tokenBucketLimiter.js:73-78). -/
structure Bucket where
  tokens : ℚ
  lastRefill : ℚ
  bucketSize : ℚ
  refillRate : ℚ
deriving DecidableEq

/-- The value returned by `isAllowed` (tokenBucketLimiter.js:164-168 and
186-190). -/
structure Decision where
  allowed : Bool
  retryAfter : ℤ
  remaining : ℤ
deriving DecidableEq

/-- `parseFloat(existingBucket.f || dflt)` followed by the
`if (isNaN(bucket.f)) bucket.f = dflt` repair
(tokenBucketLimiter.js:73-84).  An absent or empty field takes the
default via `||`; a `NaN` parse is repaired to the default; a numeric
value — negative ones included — is kept as parsed. -/
def parseField (v : StoredVal) (dflt : ℚ) : ℚ :=
  match v with
  | .absent => dflt
  | .junk => dflt
  | .num q => q

/-- The bucket `getBucket` hands to `isAllowed`
(tokenBucketLimiter.js:46-100).
* read threw (`.error`): the `catch` returns the default full bucket;
* key absent/empty (`.ok none`): a fresh full bucket is created;
* existing hash (`.ok (some h)`): each field is parsed with
  `parseField`. -/
def getBucket (rd : Except Unit (Option StoredHash))
    (bucketSize refillRate now : ℚ) : Bucket :=
  match rd with
  | .error _ =>
      { tokens := bucketSize, lastRefill := now, bucketSize, refillRate }
  | .ok none =>
      { tokens := bucketSize, lastRefill := now, bucketSize, refillRate }
  | .ok (some h) =>
      { tokens := parseField h.tokens bucketSize
        lastRefill := parseField h.lastRefill now
        bucketSize := parseField h.bucketSize bucketSize
        refillRate := parseField h.refillRate refillRate }

/-- The decision logic of `isAllowed` (tokenBucketLimiter.js:123-191),
as a pure function of the loaded bucket and `now`.  Returns the decision
together with the `tokens` and `lastRefill` values written back by the
`hmset` in the taken branch (lines 157-159 resp. 176-178).  Note the
source computes `timePassed = (now - lastRefill) / 1000` with no
clamping at zero. -/
def isAllowedCore (b : Bucket) (now : ℚ) : Decision × ℚ × ℚ :=
  let timePassed := (now - b.lastRefill) / 1000
  let tokensToAdd := timePassed * b.refillRate
  let newTokens := min b.bucketSize (b.tokens + tokensToAdd)
  if newTokens < 1 then
    (⟨false, ⌈(1 - newTokens) / b.refillRate⌉, 0⟩, newTokens, now)
  else
    (⟨true, 0, ⌊newTokens - 1⌋⟩, newTokens - 1, now)

/-- The refilled token count before consumption:
`min(bucketSize, tokens + ((now - lastRefill)/1000) * refillRate)`
(tokenBucketLimiter.js:131-136). -/
def refilled (b : Bucket) (now : ℚ) : ℚ :=
  min b.bucketSize (b.tokens + (now - b.lastRefill) / 1000 * b.refillRate)

/-- The hash with every field absent: what an `hmset` on a missing key
starts from. -/
def emptyHash : StoredHash :=
  { tokens := .absent, lastRefill := .absent
    bucketSize := .absent, refillRate := .absent }

/-- The `hmset(key, {tokens, lastRefill})` in `isAllowed`
(tokenBucketLimiter.js:156-160 and 175-179): only the two named fields
of the hash are overwritten; `bucketSize` and `refillRate` keep
whatever the store held. -/
def writeTokensLastRefill (h : StoredHash) (t lr : ℚ) : StoredHash :=
  { h with tokens := .num t, lastRefill := .num lr }

/-- The `hmset(key, newBucket)` on bucket creation
(tokenBucketLimiter.js:56-63): all four fields are written. -/
def writeNewBucket (bucketSize refillRate now : ℚ) : StoredHash :=
  { tokens := .num bucketSize, lastRefill := .num now
    bucketSize := .num bucketSize, refillRate := .num refillRate }

/-- One full `isAllowed(identifier, bucketSize, refillRate)` call
(tokenBucketLimiter.js:123-191) against a store whose true content for
the identifier's key is `store` (`none` = key missing) and whose
`hgetall` read outcome is `rd`.  When the read succeeds, `rd` reports
the true content; when it throws, the `catch` in `getBucket` returns
the default full bucket (lines 90-99) and no creation write happens.
Returns the decision and the key's content after the final `hmset`. -/
def isAllowed (store : Option StoredHash) (readFails : Bool)
    (bucketSize refillRate now : ℚ) : Decision × StoredHash :=
  let rd : Except Unit (Option StoredHash) :=
    if readFails then .error () else .ok store
  let bucket := getBucket rd bucketSize refillRate now
  -- content after getBucket's possible creation write (lines 54-70)
  let afterCreate : StoredHash :=
    match rd with
    | .ok none => writeNewBucket bucketSize refillRate now
    | _ => store.getD emptyHash
  let (d, t, lr) := isAllowedCore bucket now
  (d, writeTokensLastRefill afterCreate t lr)

/-- Outcome of one pass through the middleware returned by
`createRateLimiter` (tokenBucketLimiter.js:195-268), as observed by the
HTTP layer. -/
structure MwOutcome where
  /-- `next()` was called (request forwarded to the handler). -/
  calledNext : Bool
  /-- Status written by the middleware itself (`some 429` on denial). -/
  status : Option ℕ
  /-- The `error` string of the JSON body the middleware wrote, if any. -/
  bodyError : Option String
  /-- `X-RateLimit-Limit` header, if set. -/
  limitHeader : Option ℚ
  /-- `X-RateLimit-Remaining` header, if set. -/
  remainingHeader : Option ℤ
  /-- `Retry-After` header, if set. -/
  retryAfterHeader : Option ℤ
  /-- Some write against the store was attempted. -/
  storeWritten : Bool
deriving DecidableEq

/-- One pass through the middleware (tokenBucketLimiter.js:198-251).
When `isRedisAvailable()` is false the middleware returns `next()`
immediately (lines 200-203) — before any identifier, limit or store
work, and for every value of `failOpen`.  Otherwise it runs
`isAllowed`, sets `X-RateLimit-Remaining` and `X-RateLimit-Limit`
(lines 231-232), sets `Retry-After` only when `result.retryAfter > 0`
(lines 234-239), and either responds 429 (lines 241-246) or forwards
(line 251).  The `catch` branch (lines 252-266, where `failOpen` is
consulted) fires only when a store operation throws mid-call and is not
modelled here; `failOpen` is kept as an argument to state claims about
it. -/
def middleware (redisAvailable failOpen : Bool) (store : Option StoredHash)
    (readFails : Bool) (bucketSize refillRate now : ℚ) : MwOutcome :=
  if redisAvailable = false then
    { calledNext := true, status := none, bodyError := none
      limitHeader := none, remainingHeader := none, retryAfterHeader := none
      storeWritten := false }
  else
    let (d, _) := isAllowed store readFails bucketSize refillRate now
    let retryH : Option ℤ := if 0 < d.retryAfter then some d.retryAfter else none
    if d.allowed then
      { calledNext := true, status := none, bodyError := none
        limitHeader := some bucketSize, remainingHeader := some d.remaining
        retryAfterHeader := retryH, storeWritten := true }
    else
      { calledNext := false, status := some 429
        bodyError := some ("Too Many Requests")
        limitHeader := some bucketSize, remainingHeader := some d.remaining
        retryAfterHeader := retryH, storeWritten := true }

/-- A `(bucketSize, refillRate)` pair from the plan table. -/
structure Limits where
  bucketSize : ℚ
  refillRate : ℚ
deriving DecidableEq

/-- The `limits` table in `chatBotRoutes.js:22-26`. `none` for a plan
name outside the table (JS: `limits[userPlan]` is `undefined`). -/
def planTable : String → Option Limits
  | "free" => some ⟨10, 1/10⟩
  | "pro" => some ⟨30, 1/2⟩
  | "enterprise" => some ⟨60, 1⟩
  | _ => none

/-- The `planLimiter` callback (chatBotRoutes.js:19-29).  `bodyPlan` is
`req.body?.plan` with `none` for a missing or falsy value, so
`userPlan = bodyPlan || 'free'`.  Before the `return` line, the
`console.log` on line 27 reads `limits[userPlan].bucketSize`; when
`limits[userPlan]` is `undefined` that throws a TypeError, modelled as
`none` — the `|| limits.free` fallback on line 28 is never reached. -/
def planLimiter (bodyPlan : Option String) : Option Limits :=
  let userPlan := bodyPlan.getD ("free")
  match planTable userPlan with
  | none => none
  | some l => some l

/-- IP normalisation in the `keyGenerator` callback
(chatBotRoutes.js:15): `req.ip.startsWith('::ffff:') ?
req.ip.substring(7) : req.ip`, expressed over character lists (the seven
characters of `'::ffff:'`).  No case change is applied. -/
def normalizeIp (ip : String) : String :=
  if ip.data.take 7 = ("::ffff:").data then String.mk (ip.data.drop 7) else ip

/-- The `keyGenerator` callback (chatBotRoutes.js:12-18):
`req.headers['x-api-key'] || (normalised ip)`.  `apiKey` is `none`
when the header is absent; an empty header value is falsy in JS and
also falls through to the IP. -/
def keyGenerator (apiKey : Option String) (ip : String) : String :=
  match apiKey with
  | some k => if k = "" then normalizeIp ip else k
  | none => normalizeIp ip

/-- Bucket state the next call observes after one `isAllowed` against
the same key with no policy change: the written `tokens`/`lastRefill`
replace the old ones, `bucketSize`/`refillRate` stay. -/
def stepBucket (now : ℚ) (b : Bucket) : Bucket :=
  { b with tokens := (isAllowedCore b now).2.1
           lastRefill := (isAllowedCore b now).2.2 }

/-- A full bucket of capacity `C` and rate `rate` created at `now`. -/
def fullBucket (C : ℕ) (rate now : ℚ) : Bucket :=
  { tokens := (C : ℚ), lastRefill := now, bucketSize := (C : ℚ)
    refillRate := rate }

/-- The bucket state before the `(i+1)`-th of a burst of calls at the
single instant `now`, starting from a full bucket of capacity `C`. -/
def callSeq (C : ℕ) (rate now : ℚ) : ℕ → Bucket
  | 0 => fullBucket C rate now
  | i + 1 => stepBucket now (callSeq C rate now i)

section Lemmas

/-- Denied branch of `isAllowedCore`, in terms of `refilled`. -/
theorem isAllowedCore_of_lt_one (b : Bucket) (now : ℚ)
    (h : refilled b now < 1) :
    isAllowedCore b now =
      (⟨false, ⌈(1 - refilled b now) / b.refillRate⌉, 0⟩,
        refilled b now, now) := by
  simp only [isAllowedCore, refilled] at h ⊢
  rw [if_pos h]

/-- Allowed branch of `isAllowedCore`, in terms of `refilled`. -/
theorem isAllowedCore_of_one_le (b : Bucket) (now : ℚ)
    (h : 1 ≤ refilled b now) :
    isAllowedCore b now =
      (⟨true, 0, ⌊refilled b now - 1⌋⟩, refilled b now - 1, now) := by
  simp only [isAllowedCore, refilled] at h ⊢
  rw [if_neg (not_lt.2 h)]

/-- With no time elapsed, the refill step is the identity on a token
count not above the capacity. -/
theorem refilled_same_time (t cap rate now : ℚ) (h : t ≤ cap) :
    refilled ⟨t, now, cap, rate⟩ now = t := by
  simp [refilled, min_eq_right h]

/-- Bucket state during a same-instant burst from a full bucket:
after `i ≤ C` calls the token count is `C - i`. -/
theorem callSeq_eq (C : ℕ) (rate now : ℚ) :
    ∀ i, i ≤ C → callSeq C rate now i =
      { tokens := (C : ℚ) - (i : ℚ), lastRefill := now,
        bucketSize := (C : ℚ), refillRate := rate } := by
  intro i
  induction i with
  | zero =>
      intro _
      simp [callSeq, fullBucket]
  | succ i ih =>
      intro hiC
      have hiC' : i ≤ C := Nat.le_of_succ_le hiC
      have hlt : ((i : ℚ) + 1) ≤ (C : ℚ) := by exact_mod_cast hiC
      have hsub : (C : ℚ) - (i : ℚ) ≤ (C : ℚ) := by
        have : (0 : ℚ) ≤ (i : ℚ) := Nat.cast_nonneg i
        linarith
      have href : refilled ⟨(C : ℚ) - (i : ℚ), now, (C : ℚ), rate⟩ now
          = (C : ℚ) - (i : ℚ) :=
        refilled_same_time _ _ _ _ hsub
      have h1 : (1 : ℚ) ≤ refilled ⟨(C : ℚ) - (i : ℚ), now, (C : ℚ), rate⟩ now := by
        rw [href]; linarith
      have hcore := isAllowedCore_of_one_le _ now h1
      rw [callSeq, ih hiC']
      simp only [stepBucket, hcore, href]
      have : (C : ℚ) - (i : ℚ) - 1 = (C : ℚ) - ((i : ℚ) + 1) := by ring
      simp [this]

/-- The written `lastRefill` is `now` in both branches. -/
theorem isAllowedCore_lastRefill (b : Bucket) (now : ℚ) :
    (isAllowedCore b now).2.2 = now := by
  rcases lt_or_le (refilled b now) 1 with h | h
  · rw [isAllowedCore_of_lt_one b now h]
  · rw [isAllowedCore_of_one_le b now h]

/-- Unfolding `isAllowed` when the read succeeds on an existing hash. -/
theorem isAllowed_ok_some (h : StoredHash) (cap rate now : ℚ) :
    isAllowed (some h) false cap rate now =
      ((isAllowedCore (getBucket (.ok (some h)) cap rate now) now).1,
        writeTokensLastRefill h
          (isAllowedCore (getBucket (.ok (some h)) cap rate now) now).2.1
          (isAllowedCore (getBucket (.ok (some h)) cap rate now) now).2.2) := rfl

/-- Unfolding `isAllowed` when the key is missing (creation path). -/
theorem isAllowed_ok_none (cap rate now : ℚ) :
    isAllowed none false cap rate now =
      ((isAllowedCore ⟨cap, now, cap, rate⟩ now).1,
        writeTokensLastRefill (writeNewBucket cap rate now)
          (isAllowedCore ⟨cap, now, cap, rate⟩ now).2.1
          (isAllowedCore ⟨cap, now, cap, rate⟩ now).2.2) := rfl

/-- Unfolding `isAllowed` when the store read throws: the default full
bucket is used and the write lands on whatever the store held. -/
theorem isAllowed_readFails (store : Option StoredHash) (cap rate now : ℚ) :
    isAllowed store true cap rate now =
      ((isAllowedCore ⟨cap, now, cap, rate⟩ now).1,
        writeTokensLastRefill (store.getD emptyHash)
          (isAllowedCore ⟨cap, now, cap, rate⟩ now).2.1
          (isAllowedCore ⟨cap, now, cap, rate⟩ now).2.2) := by
  cases store <;> rfl

/-- The decision of `isAllowed` is the decision of `isAllowedCore` on
the bucket `getBucket` produced. -/
theorem isAllowed_fst (store : Option StoredHash) (rf : Bool) (cap rate now : ℚ) :
    (isAllowed store rf cap rate now).1 =
      (isAllowedCore
        (getBucket (if rf then .error () else .ok store) cap rate now) now).1 := by
  cases rf <;> cases store <;> rfl

/-- The tokens field written by `isAllowed` is the written-tokens value
of `isAllowedCore`, on every path. -/
theorem isAllowed_tokens_written (store : Option StoredHash) (rf : Bool)
    (cap rate now : ℚ) :
    (isAllowed store rf cap rate now).2.tokens =
      .num ((isAllowedCore
        (getBucket (if rf then .error () else .ok store) cap rate now) now).2.1) := by
  cases rf <;> cases store <;> rfl

/-- Bounds on the token value `isAllowedCore` writes back, for a
well-formed bucket observed at a non-regressed clock. -/
theorem written_tokens_bounds (b : Bucket) (now : ℚ)
    (h0 : 0 ≤ b.tokens) (h1 : b.tokens ≤ b.bucketSize)
    (h2 : 0 ≤ b.refillRate) (h3 : b.lastRefill ≤ now) :
    0 ≤ (isAllowedCore b now).2.1 ∧ (isAllowedCore b now).2.1 ≤ b.bucketSize := by
  have hadd : 0 ≤ (now - b.lastRefill) / 1000 * b.refillRate :=
    mul_nonneg (div_nonneg (by linarith) (by norm_num)) h2
  have hlo : b.tokens ≤ refilled b now := by
    simp only [refilled]
    exact le_min h1 (by linarith)
  have hhi : refilled b now ≤ b.bucketSize := min_le_left _ _
  rcases lt_or_le (refilled b now) 1 with h | h
  · rw [isAllowedCore_of_lt_one b now h]
    exact ⟨by linarith, hhi⟩
  · rw [isAllowedCore_of_one_le b now h]
    refine ⟨?_, ?_⟩
    · show 0 ≤ refilled b now - 1
      linarith
    · show refilled b now - 1 ≤ b.bucketSize
      linarith

/-- Unfolding the middleware when the store is reported available. -/
theorem middleware_available (failOpen : Bool) (store : Option StoredHash)
    (rf : Bool) (cap rate now : ℚ) :
    middleware true failOpen store rf cap rate now =
      (let d := (isAllowed store rf cap rate now).1
       let retryH : Option ℤ :=
         if 0 < d.retryAfter then some d.retryAfter else none
       if d.allowed then
         { calledNext := true, status := none, bodyError := none
           limitHeader := some cap, remainingHeader := some d.remaining
           retryAfterHeader := retryH, storeWritten := true }
       else
         { calledNext := false, status := some 429
           bodyError := some ("Too Many Requests")
           limitHeader := some cap, remainingHeader := some d.remaining
           retryAfterHeader := retryH, storeWritten := true }) := rfl

end Lemmas

section Claims

/-- C1. For every bucket state with `0 ≤ tokens ≤ capacity`,
`rate > 0` and `now ≥ lastRefill`, `isAllowed` computes
`refilled = min(capacity, tokens + ((now - lastRefill)/1000) * rate)`
and returns: if `refilled ≥ 1`, allowed with
`remaining = floor(refilled - 1)` and `retryAfterSeconds = 0`;
otherwise denied with `remaining = 0` and
`retryAfterSeconds = ceil((1 - refilled)/rate)`.  Moreover, from a
full bucket of positive integer capacity `C` with no time elapsing
between calls, the first `C` calls are allowed and the `(C+1)`-th is
denied with `retryAfterSeconds ≥ 1`. -/
theorem claim_C1 :
    (∀ (b : Bucket) (now : ℚ), 0 ≤ b.tokens → b.tokens ≤ b.bucketSize →
      0 < b.refillRate → b.lastRefill ≤ now →
      (1 ≤ refilled b now →
        isAllowedCore b now =
          (⟨true, 0, ⌊refilled b now - 1⌋⟩, refilled b now - 1, now)) ∧
      (refilled b now < 1 →
        isAllowedCore b now =
          (⟨false, ⌈(1 - refilled b now) / b.refillRate⌉, 0⟩,
            refilled b now, now)))
    ∧ (∀ (C : ℕ) (rate now : ℚ), 1 ≤ C → 0 < rate →
      (∀ i, i < C → (isAllowedCore (callSeq C rate now i) now).1.allowed = true)
      ∧ (isAllowedCore (callSeq C rate now C) now).1.allowed = false
      ∧ 1 ≤ (isAllowedCore (callSeq C rate now C) now).1.retryAfter) := by
  constructor
  · intro b now _ _ _ _
    exact ⟨fun h => isAllowedCore_of_one_le b now h,
      fun h => isAllowedCore_of_lt_one b now h⟩
  · intro C rate now hC hrate
    have hb : callSeq C rate now C =
        { tokens := 0, lastRefill := now, bucketSize := (C : ℚ)
          refillRate := rate } := by
      rw [callSeq_eq C rate now C le_rfl, sub_self]
    have href : refilled ⟨0, now, (C : ℚ), rate⟩ now = 0 :=
      refilled_same_time 0 (C : ℚ) rate now (Nat.cast_nonneg C)
    have hlt : refilled ⟨0, now, (C : ℚ), rate⟩ now < 1 := by
      rw [href]; norm_num
    have hcore := isAllowedCore_of_lt_one _ now hlt
    rw [href] at hcore
    have hretry : 1 ≤ (⌈(1 - (0 : ℚ)) / ((⟨0, now, (C : ℚ), rate⟩ : Bucket)).refillRate⌉ : ℤ) := by
      show (1 : ℤ) ≤ ⌈(1 - (0 : ℚ)) / rate⌉
      have hpos : (0 : ℚ) < (1 - (0 : ℚ)) / rate := by
        rw [sub_zero]; exact div_pos one_pos hrate
      have := Int.ceil_pos.mpr hpos
      omega
    refine ⟨fun i hi => ?_, ?_, ?_⟩
    · rw [callSeq_eq C rate now i (Nat.le_of_lt hi)]
      have hsub : (C : ℚ) - (i : ℚ) ≤ (C : ℚ) := by
        have : (0 : ℚ) ≤ (i : ℚ) := Nat.cast_nonneg i
        linarith
      have href' := refilled_same_time ((C : ℚ) - (i : ℚ)) (C : ℚ) rate now hsub
      have h1 : (1 : ℚ) ≤ refilled ⟨(C : ℚ) - (i : ℚ), now, (C : ℚ), rate⟩ now := by
        rw [href']
        have : ((i : ℚ) + 1) ≤ (C : ℚ) := by exact_mod_cast hi
        linarith
      rw [isAllowedCore_of_one_le _ now h1]
    · rw [hb, hcore]
    · rw [hb, hcore]
      exact hretry

/-- Witness for C1: a full bucket of capacity 2, rate 1/2 at time 5 —
the call is allowed with remaining 1, and after two same-instant calls
the third is denied. -/
theorem claim_C1_witness :
    isAllowedCore ⟨2, 5, 2, 1/2⟩ 5 = (⟨true, 0, 1⟩, 1, 5)
    ∧ (isAllowedCore (callSeq 2 (1/2) 5 2) 5).1.allowed = false := by
  constructor
  · have hr : refilled ⟨2, 5, 2, 1/2⟩ 5 = 2 := by
      simp [refilled]
    have h := (claim_C1.1 ⟨2, 5, 2, 1/2⟩ 5 (by norm_num) (by norm_num)
      (by norm_num) (le_refl 5)).1 (by rw [hr]; norm_num)
    rw [h, hr]
    norm_num [Int.floor_one]
  · exact (claim_C1.2 2 (1/2) 5 (by norm_num) (by norm_num)).2.1

/-- C2 fails as stated: with a stored bucket
`{tokens: 0.5, lastRefill: 10000, bucketSize: 10, refillRate: 1}` and
`now = 0` (clock skew), the completed acquire persists
`tokens = -19/2 < 0`, a negative token count. -/
theorem claim_C2_cex :
    (isAllowed (some ⟨.num (1/2), .num 10000, .num 10, .num 1⟩)
        false 10 1 0).2.tokens = .num (-19/2)
    ∧ (-19/2 : ℚ) < 0 := by
  refine ⟨?_, by norm_num⟩
  rw [isAllowed_ok_some]
  have hb : getBucket (.ok (some ⟨.num (1/2), .num 10000, .num 10, .num 1⟩))
      10 1 0 = ⟨1/2, 10000, 10, 1⟩ := rfl
  rw [hb]
  have hr : refilled ⟨1/2, 10000, 10, 1⟩ 0 = -19/2 := by
    simp only [refilled]
    norm_num [min_def]
  have hcore := isAllowedCore_of_lt_one ⟨1/2, 10000, 10, 1⟩ 0
    (by rw [hr]; norm_num)
  rw [hr] at hcore
  rw [hcore]
  rfl

/-- C2 (amended). Provided the loaded bucket is well-formed
(`0 ≤ tokens ≤ bucketSize`, `refillRate ≥ 0`) and the clock has not
regressed (`lastRefill ≤ now`), the completed acquire persists a
numeric tokens value in `[0, bucketSize]`; the unrestricted claim is
false (`claim_C2_cex`). -/
theorem claim_C2 (store : Option StoredHash) (cap rate now : ℚ)
    (h0 : 0 ≤ (getBucket (.ok store) cap rate now).tokens)
    (h1 : (getBucket (.ok store) cap rate now).tokens
        ≤ (getBucket (.ok store) cap rate now).bucketSize)
    (h2 : 0 ≤ (getBucket (.ok store) cap rate now).refillRate)
    (h3 : (getBucket (.ok store) cap rate now).lastRefill ≤ now) :
    ∃ t, (isAllowed store false cap rate now).2.tokens = .num t
      ∧ 0 ≤ t ∧ t ≤ (getBucket (.ok store) cap rate now).bucketSize := by
  have hw := isAllowed_tokens_written store false cap rate now
  have hbd := written_tokens_bounds (getBucket (.ok store) cap rate now) now
    h0 h1 h2 h3
  exact ⟨_, by simpa using hw, hbd.1, hbd.2⟩

/-- Witness for C2 (amended): stored bucket
`{tokens: 5, lastRefill: 0, bucketSize: 10, refillRate: 1}` read at
`now = 1000`. -/
theorem claim_C2_witness :
    ∃ t, (isAllowed (some ⟨.num 5, .num 0, .num 10, .num 1⟩)
        false 10 1 1000).2.tokens = .num t
      ∧ 0 ≤ t ∧ t ≤ (getBucket (.ok (some ⟨.num 5, .num 0, .num 10, .num 1⟩))
        10 1 1000).bucketSize :=
  claim_C2 (some ⟨.num 5, .num 0, .num 10, .num 1⟩) 10 1 1000
    (by norm_num [getBucket, parseField])
    (by norm_num [getBucket, parseField])
    (by norm_num [getBucket, parseField])
    (by norm_num [getBucket, parseField])

/-- C4 fails as stated: with stored bucket
`{tokens: 5, lastRefill: 2000, bucketSize: 10, refillRate: 1}` and
`now = 1000 < lastRefill`, the persisted state is
`tokens = 3, lastRefill = 1000`: the negative interval removed one
token beyond the consumed one (a zero-elapsed call would persist 4),
and `lastRefill` regressed from 2000 to 1000. -/
theorem claim_C4_cex :
    (isAllowed (some ⟨.num 5, .num 2000, .num 10, .num 1⟩)
        false 10 1 1000).2
      = { tokens := .num 3, lastRefill := .num 1000
          bucketSize := .num 10, refillRate := .num 1 }
    ∧ (1000 : ℚ) < 2000 ∧ (3 : ℚ) ≠ 5 - 1 := by
  refine ⟨?_, by norm_num, by norm_num⟩
  rw [isAllowed_ok_some]
  have hb : getBucket (.ok (some ⟨.num 5, .num 2000, .num 10, .num 1⟩))
      10 1 1000 = ⟨5, 2000, 10, 1⟩ := rfl
  rw [hb]
  have hr : refilled ⟨5, 2000, 10, 1⟩ 1000 = 4 := by
    simp only [refilled]
    norm_num [min_def]
  have hcore := isAllowedCore_of_one_le ⟨5, 2000, 10, 1⟩ 1000
    (by rw [hr]; norm_num)
  rw [hr] at hcore
  rw [hcore]
  show writeTokensLastRefill _ (4 - 1) 1000 = _
  norm_num [writeTokensLastRefill]

/-- C4 (amended). For `now < lastRefill` the code applies the
signed elapsed time with no clamping: the pre-consumption token count
is `tokens + ((now - lastRefill)/1000)·rate`, strictly below the stored
`tokens`, and the write sets `lastRefill = now`, regressing it. -/
theorem claim_C4 (b : Bucket) (now : ℚ)
    (hnow : now < b.lastRefill) (hrate : 0 < b.refillRate)
    (hcap : b.tokens ≤ b.bucketSize) :
    refilled b now = b.tokens + (now - b.lastRefill) / 1000 * b.refillRate
    ∧ refilled b now < b.tokens
    ∧ (isAllowedCore b now).2.2 = now ∧ now < b.lastRefill := by
  have hneg : (now - b.lastRefill) / 1000 * b.refillRate < 0 :=
    mul_neg_of_neg_of_pos (div_neg_of_neg_of_pos (by linarith) (by norm_num))
      hrate
  have heq : refilled b now
      = b.tokens + (now - b.lastRefill) / 1000 * b.refillRate := by
    simp only [refilled]
    exact min_eq_right (by linarith)
  exact ⟨heq, by linarith [heq], isAllowedCore_lastRefill b now, hnow⟩

/-- Witness for C4 (amended) at the bucket
`{tokens: 5, lastRefill: 2000, bucketSize: 10, refillRate: 1}`,
`now = 1000`. -/
theorem claim_C4_witness :
    refilled ⟨5, 2000, 10, 1⟩ 1000 = 5 + (1000 - 2000) / 1000 * 1
    ∧ refilled ⟨5, 2000, 10, 1⟩ 1000 < 5
    ∧ (isAllowedCore ⟨5, 2000, 10, 1⟩ 1000).2.2 = 1000
    ∧ (1000 : ℚ) < 2000 := by
  have h := claim_C4 ⟨5, 2000, 10, 1⟩ 1000 (by norm_num) (by norm_num)
    (by norm_num)
  simpa using h

/-- C5. For every acquire against an existing stored bucket and all
caller-supplied capacity and rate, the persisted write changes only the
`tokens` and `lastRefill` fields; the stored `bucketSize` and
`refillRate` fields are exactly what the store already held. -/
theorem claim_C5 (h : StoredHash) (cap rate now : ℚ) :
    (isAllowed (some h) false cap rate now).2.bucketSize = h.bucketSize
    ∧ (isAllowed (some h) false cap rate now).2.refillRate = h.refillRate := by
  rw [isAllowed_ok_some]
  exact ⟨rfl, rfl⟩

/-- C3 fails as stated: with the store reported unavailable and
`failOpen = false`, the middleware does not respond 503 — it calls
`next()` (forwarding the request) with no status, no body and no store
write (tokenBucketLimiter.js:200-203 returns `next()` before the
`failOpen` option is ever consulted). -/
theorem claim_C3_cex :
    (middleware false false (some emptyHash) false 10 (1/10) 0).calledNext = true
    ∧ (middleware false false (some emptyHash) false 10 (1/10) 0).status ≠ some 503
    ∧ (middleware false false (some emptyHash) false 10 (1/10) 0).status = none
    ∧ (middleware false false (some emptyHash) false 10 (1/10) 0).storeWritten = false
    ∧ (middleware false false (some emptyHash) false 10 (1/10) 0).bodyError = none := by
  refine ⟨rfl, ?_, rfl, rfl, rfl⟩
  intro h
  exact Option.noConfusion h

/-- C3 (amended). Whenever the store is reported unavailable, every
admission check — for both values of `failOpen` — passes the request
through to the next handler with no status, no body, no rate-limit
headers and no store write. -/
theorem claim_C3 (failOpen : Bool) (store : Option StoredHash) (rf : Bool)
    (cap rate now : ℚ) :
    middleware false failOpen store rf cap rate now =
      { calledNext := true, status := none, bodyError := none
        limitHeader := none, remainingHeader := none
        retryAfterHeader := none, storeWritten := false } := rfl

/-- C6 fails as stated: a stored bucket whose `bucketSize` (60)
exceeds the request's capacity (10) — reachable because creation uses
the plan of the creating request — yields an allowed response with
`X-RateLimit-Remaining = 59`, outside `[0, capacity] = [0, 10]`, while
`X-RateLimit-Limit = 10`. -/
theorem claim_C6_cex :
    (middleware true false (some ⟨.num 60, .num 0, .num 60, .num (1/2)⟩)
        false 10 (1/10) 0).remainingHeader = some 59
    ∧ (middleware true false (some ⟨.num 60, .num 0, .num 60, .num (1/2)⟩)
        false 10 (1/10) 0).limitHeader = some 10
    ∧ ¬((59 : ℤ) ≤ 10) := by
  have hb : getBucket (.ok (some ⟨.num 60, .num 0, .num 60, .num (1/2)⟩))
      10 (1/10) 0 = ⟨60, 0, 60, 1/2⟩ := rfl
  have hr : refilled ⟨60, 0, 60, 1/2⟩ 0 = 60 := by
    simp [refilled]
  have hcore := isAllowedCore_of_one_le ⟨60, 0, 60, 1/2⟩ 0
    (by rw [hr]; norm_num)
  rw [hr] at hcore
  have hfl : (⌊(60 : ℚ) - 1⌋ : ℤ) = 59 := by
    rw [Int.floor_eq_iff]
    norm_num
  rw [hfl] at hcore
  have hfst := isAllowed_fst (some ⟨.num 60, .num 0, .num 60, .num (1/2)⟩)
    false 10 (1/10) 0
  rw [middleware_available, hfst]
  simp only [if_neg, Bool.false_eq_true, reduceIte, hb, hcore]
  norm_num

/-- C6 (amended). For every admission check with the store
available, a non-negative request capacity and a positive effective
refill rate, the response carries `X-RateLimit-Limit` equal to the
request's capacity and `X-RateLimit-Remaining` an integer in
`[0, max(request capacity, stored bucket capacity)]` — the stored
capacity, not the request's, bounds the remaining count — and the
`Retry-After` header is present iff the request is denied (429). -/
theorem claim_C6 (failOpen : Bool) (store : Option StoredHash) (rf : Bool)
    (cap rate now : ℚ) (hcap : 0 ≤ cap)
    (hrate : 0 < (getBucket (if rf then .error () else .ok store)
        cap rate now).refillRate) :
    (middleware true failOpen store rf cap rate now).limitHeader = some cap
    ∧ (∃ r : ℤ,
        (middleware true failOpen store rf cap rate now).remainingHeader = some r
        ∧ 0 ≤ r ∧ (r : ℚ) ≤ max cap (getBucket
            (if rf then .error () else .ok store) cap rate now).bucketSize)
    ∧ ((middleware true failOpen store rf cap rate now).retryAfterHeader.isSome
        ↔ (middleware true failOpen store rf cap rate now).status = some 429) := by
  have hfst := isAllowed_fst store rf cap rate now
  set b := getBucket (if rf then .error () else .ok store) cap rate now with hbdef
  rcases lt_or_le (refilled b now) 1 with hlt | hle
  · have hcore := isAllowedCore_of_lt_one b now hlt
    have hretry : 0 < (⌈(1 - refilled b now) / b.refillRate⌉ : ℤ) :=
      Int.ceil_pos.mpr (div_pos (by linarith) hrate)
    rw [middleware_available, hfst, hcore]
    simp only [Bool.false_eq_true, reduceIte, if_pos hretry]
    refine ⟨trivial, ⟨0, rfl, le_refl 0, ?_⟩, by simp⟩
    have := le_max_left cap b.bucketSize
    push_cast
    linarith
  · have hcore := isAllowedCore_of_one_le b now hle
    rw [middleware_available, hfst, hcore]
    have hnoretry : ¬ ((0 : ℤ) < 0) := lt_irrefl 0
    simp only [Bool.true_eq_false, reduceIte, if_neg hnoretry]
    refine ⟨trivial, ⟨⌊refilled b now - 1⌋, rfl, ?_, ?_⟩, by simp⟩
    · exact Int.floor_nonneg.mpr (by linarith)
    · have h1 : (⌊refilled b now - 1⌋ : ℚ) ≤ refilled b now - 1 :=
        Int.floor_le _
      have h2 : refilled b now ≤ b.bucketSize := min_le_left _ _
      have h3 := le_max_right cap b.bucketSize
      linarith

/-- Witness for C6 (amended): a first request creating its bucket with
capacity 10, rate 1/10. -/
theorem claim_C6_witness :
    (middleware true false none false 10 (1/10) 0).limitHeader = some 10
    ∧ (∃ r : ℤ,
        (middleware true false none false 10 (1/10) 0).remainingHeader = some r
        ∧ 0 ≤ r ∧ (r : ℚ) ≤ max 10 (getBucket
            (if false then .error () else .ok none) 10 (1/10) 0).bucketSize)
    ∧ ((middleware true false none false 10 (1/10) 0).retryAfterHeader.isSome
        ↔ (middleware true false none false 10 (1/10) 0).status = some 429) :=
  claim_C6 false none false 10 (1/10) 0 (by norm_num) (by norm_num [getBucket])

/-- C7. The plan resolver returns capacity 10 / rate 0.1 for
`free`, 30 / 0.5 for `pro`, 60 / 1 for `enterprise`, and falls back to
the free row when the plan is missing.  But for a plan name outside
the table it does not return the free row without failing: the
debug log on chatBotRoutes.js:27 reads `limits[userPlan].bucketSize`
(of `undefined`) and throws a TypeError before the `|| limits.free`
fallback on line 28 — whose presence shows the fallback intent — can
apply.  The throw is modelled as `none`. -/
theorem claim_C7 :
    planLimiter (some ("free")) = some ⟨10, 1/10⟩
    ∧ planLimiter (some ("pro")) = some ⟨30, 1/2⟩
    ∧ planLimiter (some ("enterprise")) = some ⟨60, 1⟩
    ∧ planLimiter none = some ⟨10, 1/10⟩
    ∧ planLimiter (some ("basic")) = none :=
  ⟨rfl, rfl, rfl, rfl, rfl⟩

/-- C8 fails as stated: the identifier derived from the client
address is not lowercased — `'2001:DB8::1'` maps to itself, not to
`'2001:db8::1'` (chatBotRoutes.js:15 only strips a leading
`'::ffff:'`). -/
theorem claim_C8_cex :
    keyGenerator none ("2001:DB8::1") = "2001:DB8::1"
    ∧ ("2001:DB8::1" : String) ≠ ("2001:db8::1" : String) := by
  exact ⟨rfl, by decide⟩

/-- C8 (amended). With an `x-api-key` header (non-empty), the
identifier is the header's literal value; without one it is the client
address with a leading `'::ffff:'` stripped — with no lowercasing.  In
particular `'::ffff:10.0.0.1'` and `'10.0.0.1'` map to the same
identifier. -/
theorem claim_C8 (apiKey : Option String) (ip : String) :
    (∀ k, apiKey = some k → ¬ k = "" → keyGenerator apiKey ip = k)
    ∧ (apiKey = none → keyGenerator apiKey ip = normalizeIp ip)
    ∧ keyGenerator none ("::ffff:10.0.0.1") = keyGenerator none ("10.0.0.1") := by
  refine ⟨?_, ?_, ?_⟩
  · rintro k rfl hk
    simp [keyGenerator, hk]
  · rintro rfl
    rfl
  · rfl

/-- Witness for C8 (amended): an API-keyed request and the
IPv4-mapped-IPv6 collapse. -/
theorem claim_C8_witness :
    keyGenerator (some ("key1")) ("::ffff:10.0.0.1") = "key1"
    ∧ keyGenerator none ("::ffff:10.0.0.1") = keyGenerator none ("10.0.0.1") :=
  ⟨(claim_C8 (some ("key1")) ("::ffff:10.0.0.1")).1 ("key1") rfl (by decide),
    (claim_C8 none ("10.0.0.1")).2.2⟩

/-- C9 fails as stated: a stored `tokens` field of `-5` is negative
yet survives the load unchanged — it is not replaced by the caller's
capacity 10 (tokenBucketLimiter.js:81 only checks `isNaN`, never
negativity). -/
theorem claim_C9_cex :
    (getBucket (.ok (some ⟨.num (-5), .num 0, .num 10, .num 1⟩)) 10 1 0).tokens = -5
    ∧ ((-5 : ℚ) < 0) ∧ ((-5 : ℚ) ≠ 10) :=
  ⟨rfl, by norm_num, by norm_num⟩

/-- C9 (amended). On every bucket load, each stored field that is
non-numeric (absent, empty, or unparsable) is replaced by the caller's
policy value (`tokens` by capacity, `lastRefill` by `now`, `bucketSize`
by capacity, `refillRate` by rate); a field that parses to a number —
negative ones included — is kept as stored. -/
theorem claim_C9 (h : StoredHash) (cap rate now : ℚ) :
    ((h.tokens = .absent ∨ h.tokens = .junk) →
        (getBucket (.ok (some h)) cap rate now).tokens = cap)
    ∧ (∀ q, h.tokens = .num q →
        (getBucket (.ok (some h)) cap rate now).tokens = q)
    ∧ ((h.lastRefill = .absent ∨ h.lastRefill = .junk) →
        (getBucket (.ok (some h)) cap rate now).lastRefill = now)
    ∧ (∀ q, h.lastRefill = .num q →
        (getBucket (.ok (some h)) cap rate now).lastRefill = q)
    ∧ ((h.bucketSize = .absent ∨ h.bucketSize = .junk) →
        (getBucket (.ok (some h)) cap rate now).bucketSize = cap)
    ∧ (∀ q, h.bucketSize = .num q →
        (getBucket (.ok (some h)) cap rate now).bucketSize = q)
    ∧ ((h.refillRate = .absent ∨ h.refillRate = .junk) →
        (getBucket (.ok (some h)) cap rate now).refillRate = rate)
    ∧ (∀ q, h.refillRate = .num q →
        (getBucket (.ok (some h)) cap rate now).refillRate = q) := by
  refine ⟨?_, ?_, ?_, ?_, ?_, ?_, ?_, ?_⟩
  · rintro (he | he) <;> simp [getBucket, he, parseField]
  · rintro q he
    simp [getBucket, he, parseField]
  · rintro (he | he) <;> simp [getBucket, he, parseField]
  · rintro q he
    simp [getBucket, he, parseField]
  · rintro (he | he) <;> simp [getBucket, he, parseField]
  · rintro q he
    simp [getBucket, he, parseField]
  · rintro (he | he) <;> simp [getBucket, he, parseField]
  · rintro q he
    simp [getBucket, he, parseField]

/-- Witness for C9 (amended): a hash with an unparsable `tokens`, a
negative numeric `lastRefill`, an absent `bucketSize` and a numeric
`refillRate`, loaded under policy capacity 10, rate 1, at `now = 0`. -/
theorem claim_C9_witness :
    (getBucket (.ok (some ⟨.junk, .num (-3), .absent, .num 2⟩)) 10 1 0).tokens = 10
    ∧ (getBucket (.ok (some ⟨.junk, .num (-3), .absent, .num 2⟩)) 10 1 0).lastRefill = -3
    ∧ (getBucket (.ok (some ⟨.junk, .num (-3), .absent, .num 2⟩)) 10 1 0).bucketSize = 10
    ∧ (getBucket (.ok (some ⟨.junk, .num (-3), .absent, .num 2⟩)) 10 1 0).refillRate = 2 := by
  have h := claim_C9 ⟨.junk, .num (-3), .absent, .num 2⟩ 10 1 0
  exact ⟨h.1 (Or.inr rfl), h.2.2.2.1 (-3) rfl, h.2.2.2.2.1 (Or.inl rfl),
    h.2.2.2.2.2.2.2 2 rfl⟩

/-- C10. If the store read inside `getBucket` throws, `acquire`
neither propagates the error nor denies: it proceeds with a fresh full
bucket, so for capacity ≥ 1 the decision is allowed with
`retryAfter = 0` and `remaining = ⌊capacity - 1⌋`, and the write
replaces the stored `tokens`/`lastRefill` regardless of what the store
actually held. -/
theorem claim_C10 (store : Option StoredHash) (cap rate now : ℚ)
    (hcap : 1 ≤ cap) :
    (isAllowed store true cap rate now).1.allowed = true
    ∧ (isAllowed store true cap rate now).1.retryAfter = 0
    ∧ (isAllowed store true cap rate now).1.remaining = ⌊cap - 1⌋
    ∧ (isAllowed store true cap rate now).2.tokens = .num (cap - 1)
    ∧ (isAllowed store true cap rate now).2.lastRefill = .num now := by
  have hr : refilled ⟨cap, now, cap, rate⟩ now = cap :=
    refilled_same_time cap cap rate now le_rfl
  have hcore := isAllowedCore_of_one_le ⟨cap, now, cap, rate⟩ now
    (by rw [hr]; exact hcap)
  rw [hr] at hcore
  rw [isAllowed_readFails, hcore]
  exact ⟨rfl, rfl, rfl, rfl, rfl⟩

/-- Witness for C10: a failed read with capacity 10, rate 1/10, over a
store that actually held a drained bucket. -/
theorem claim_C10_witness :
    (isAllowed (some ⟨.num 0, .num 99, .num 10, .num (1/10)⟩)
        true 10 (1/10) 0).1.allowed = true
    ∧ (isAllowed (some ⟨.num 0, .num 99, .num 10, .num (1/10)⟩)
        true 10 (1/10) 0).1.remaining = 9
    ∧ (isAllowed (some ⟨.num 0, .num 99, .num 10, .num (1/10)⟩)
        true 10 (1/10) 0).2.tokens = .num 9 := by
  have h := claim_C10 (some ⟨.num 0, .num 99, .num 10, .num (1/10)⟩)
    10 (1/10) 0 (by norm_num)
  refine ⟨h.1, ?_, ?_⟩
  · rw [h.2.2.1, show ((10 : ℚ) - 1) = 9 by norm_num, Int.floor_eq_iff]
    norm_num
  · rw [h.2.2.2.1]
    norm_num

end Claims

end Flarenet
